import Mathlib

set_option maxRecDepth 4000

/-!
Verification of the pspdecrypt Python binding layer (pspdecrypt_python.cpp).

The binding file is the only source under review; the underlying C library
routines (pspDecryptPRX, pspDecryptIPL1, pspLinearizeIPL2, pspDecryptIPL3,
pspDecompress) are external to it, so the shallow embedding takes them as
function parameters of the bindings: each returns a C int status together
with the contents of the output buffer after the call.  The small header
accessors of pspdecrypt_lib (pspGetTagVal and friends) are modelled from the
specification, since only their call sites appear in the reviewed source.

Buffers are lists of byte values; u32 arithmetic of the C code is rendered
as Nat arithmetic with explicit reduction modulo 2 ^ 32 at the points where
the C code converts or wraps.
-/

namespace Pspdecrypt

/-- Byte buffers: a list of byte values. -/
abbrev Buf := List Nat

/-- One error kind per distinct runtime error raised by the bindings. -/
inductive PError
  | TooSmall
  | SecureIdInvalid
  | DecryptionFailed
  | Ipl1Failed
  | Ipl2Failed
  | Ipl3Failed
  | NotCompressed
  | DecompressFailed
  | LogOutOfRange
deriving DecidableEq

/-- Result of a binding call: a returned value or a raised error. -/
inductive PResult (α : Type)
  | ok (val : α)
  | err (e : PError)
deriving DecidableEq

/-- `PSP_HEADER_SIZE` from the binding source: 0x150 bytes. -/
def PSP_HEADER_SIZE : Nat := 0x150

/-- The bindings truncate buffer sizes to u32 (`u32 input_size = input_str.size()`). -/
def usize (data : Buf) : Nat := data.length % 2 ^ 32

/-- Modelled from the spec: the header accessors of pspdecrypt_lib (not under
review here) read little-endian 32-bit fields at fixed offsets inside the
0x150-byte executable header. -/
def le32 (data : Buf) (off : Nat) : Nat :=
  data.getD off 0 + 2 ^ 8 * data.getD (off + 1) 0 +
    2 ^ 16 * data.getD (off + 2) 0 + 2 ^ 24 * data.getD (off + 3) 0

/-- Modelled from the spec: `pspGetTagVal`, the 32-bit tag discriminator field. -/
def pspGetTagVal (data : Buf) : Nat := le32 data 0xD0

/-- Modelled from the spec: `pspGetElfSize`, the expected plaintext length field. -/
def pspGetElfSize (data : Buf) : Nat := le32 data 0x28

/-- Modelled from the spec: `pspGetPspSize`, the on-disk encrypted image length field. -/
def pspGetPspSize (data : Buf) : Nat := le32 data 0x2C

/-- Modelled from the spec: `pspGetCompSize`, the ciphertext payload length field. -/
def pspGetCompSize (data : Buf) : Nat := le32 data 0xB0

/-- GZIP magic bytes. -/
def GZIP_MAGIC : Buf := [0x1F, 0x8B]

/-- KL4E magic bytes. -/
def KL4E_MAGIC : Buf := [0x4B, 0x4C, 0x34, 0x45]

/-- KL3E magic bytes. -/
def KL3E_MAGIC : Buf := [0x4B, 0x4C, 0x33, 0x45]

/-- 2RLZ magic bytes. -/
def RLZ_MAGIC : Buf := [0x32, 0x52, 0x4C, 0x5A]

/-- Modelled from the spec: `pspIsCompressed` (not under review here) is a
magic-byte sniff of the leading bytes against the four supported formats
(GZIP, KL4E, KL3E, 2RLZ); no allocation, no decoding. -/
def pspIsCompressed (data : Buf) : Bool :=
  data.take 2 == GZIP_MAGIC || data.take 4 == KL4E_MAGIC ||
    data.take 4 == KL3E_MAGIC || data.take 4 == RLZ_MAGIC

/-- Shape of the external `pspDecryptPRX` routine: input bytes, optional
secure id, verbose flag; yields the C int status and the output buffer
contents after the call. -/
abbrev PrxDecryptFn := Buf → Option Buf → Bool → Int × Buf

/-- Shape of the external `pspDecompress` routine: input bytes and output
capacity; yields the C int status, the output buffer contents, and the
diagnostic log string it stores through its reference parameter. -/
abbrev CodecFn := Buf → Nat → Int × Buf × Buf

/-- Shape of the external `pspDecryptIPL1` / `pspDecryptIPL3` routines. -/
abbrev IplFn := Buf → Int × Buf

/-- Shape of the external `pspLinearizeIPL2` routine: yields the C int
status, the output buffer contents and the start address. -/
abbrev Ipl2Fn := Buf → Int × Buf × Nat

/-- `((x + 15) / 16) * 16` computed in u32 arithmetic, as in decrypt_prx. -/
def align16u32 (n : Nat) : Nat := (n + 15) % 2 ^ 32 / 16 * 16

/-- The body of `decrypt_prx` after the size and secure-id validation:
sizes the output to `align16(max(psp_size, elf_size))`, runs the
decrypter, maps a negative status to DecryptionFailed, then, when the
output is at least 4 bytes and sniffs as compressed, decompresses into an
`elf_size`-capacity buffer and keeps that result exactly when the C
comparison `decompressed_size == elf_size` (int against u32, hence modulo
2 ^ 32) holds; otherwise the undecompressed bytes are returned.  In both
branches of that comparison, a verbose run prints `log_str.substr(1)`
without first checking that the codec log is non-empty, so when the log is
empty the call raises out_of_range instead of returning. -/
def decryptPrxCore (prxDec : PrxDecryptFn) (codec : CodecFn) (data : Buf)
    (sid : Option Buf) (verbose : Bool) : PResult Buf :=
  let elf_size := pspGetElfSize data
  let psp_size := pspGetPspSize data
  let output_capacity := align16u32 (max psp_size elf_size)
  let r := prxDec data sid verbose
  if r.1 < 0 then .err .DecryptionFailed
  else
    let output := r.2.take r.1.toNat
    if 4 ≤ r.1 ∧ pspIsCompressed r.2 = true then
      let d := codec output elf_size
      if d.1 % 2 ^ 32 = (elf_size : Int) then
        if verbose = true ∧ d.2.2 = [] then .err .LogOutOfRange
        else .ok (d.2.1.take d.1.toNat)
      else
        if verbose = true ∧ d.2.2 = [] then .err .LogOutOfRange
        else .ok output
    else
      let _ := output_capacity
      .ok output

/-- `decrypt_prx` from pspdecrypt_python.cpp: rejects inputs shorter than
the 0x150-byte header, rejects a supplied secure id that is not exactly 16
bytes, and otherwise runs the decryption core. -/
def decrypt_prx (prxDec : PrxDecryptFn) (codec : CodecFn) (data : Buf)
    (secure_id : Option Buf) (verbose : Bool) : PResult Buf :=
  if usize data < PSP_HEADER_SIZE then .err .TooSmall
  else
    match secure_id with
    | some sid =>
        if sid.length ≠ 16 then .err .SecureIdInvalid
        else decryptPrxCore prxDec codec data (some sid) verbose
    | none => decryptPrxCore prxDec codec data none verbose

/-- The record returned by `get_prx_info`. -/
structure PrxInfo where
  tag : Nat
  elf_size : Nat
  psp_size : Nat
  comp_size : Nat
  is_compressed : Bool
deriving DecidableEq

/-- `get_prx_info` from pspdecrypt_python.cpp: pure header parse, no
decryption; rejects inputs shorter than the 0x150-byte header. -/
def get_prx_info (data : Buf) : PResult PrxInfo :=
  if data.length < PSP_HEADER_SIZE then .err .TooSmall
  else
    .ok ⟨pspGetTagVal data, pspGetElfSize data, pspGetPspSize data,
      pspGetCompSize data, pspIsCompressed data⟩

/-- `decrypt_ipl1` from pspdecrypt_python.cpp: no size validation; a status
of zero or below is the stage-1 failure error, otherwise the first
`status` bytes of the output buffer are returned.  The verbose print is
guarded by a non-empty library log (so its substr cannot throw) and the
flag does not enter the result. -/
def decrypt_ipl1 (iplDec : IplFn) (data : Buf) (verbose : Bool) : PResult Buf :=
  let r := iplDec data
  if r.1 ≤ 0 then .err .Ipl1Failed
  else
    let _ := verbose
    .ok (r.2.take r.1.toNat)

/-- `linearize_ipl2` from pspdecrypt_python.cpp: no size validation; a
status of zero or below is the stage-2 failure error, otherwise the first
`status` output bytes are returned together with the start address. -/
def linearize_ipl2 (f : Ipl2Fn) (data : Buf) : PResult (Buf × Nat) :=
  let r := f data
  if r.1 ≤ 0 then .err .Ipl2Failed
  else .ok (r.2.1.take r.1.toNat, r.2.2)

/-- `decrypt_ipl3` from pspdecrypt_python.cpp: no size validation; a status
of zero or below is the stage-3 failure error. -/
def decrypt_ipl3 (iplDec : IplFn) (data : Buf) : PResult Buf :=
  let r := iplDec data
  if r.1 ≤ 0 then .err .Ipl3Failed
  else .ok (r.2.take r.1.toNat)

/-- `decompress` from pspdecrypt_python.cpp: rejects input whose leading
bytes sniff as none of the supported magics; the output capacity is
`max_size` when positive, else `input_size * 10` in u32 arithmetic; a
negative codec status is the decompression failure error, otherwise the
first `status` bytes of the output buffer are returned.  Unlike in
decrypt_prx, the verbose print here is guarded by a non-empty codec log
(so its substr cannot throw) and does not enter the result. -/
def decompress (codec : CodecFn) (data : Buf) (max_size : Int)
    (verbose : Bool) : PResult Buf :=
  if pspIsCompressed data = false then .err .NotCompressed
  else
    let output_capacity : Nat :=
      if 0 < max_size then max_size.toNat else usize data * 10 % 2 ^ 32
    let r := codec data output_capacity
    if r.1 < 0 then .err .DecompressFailed
    else
      let _ := verbose
      .ok (r.2.1.take r.1.toNat)

/-- Process-wide crypto-engine initialization state: `decrypt_prx` (shared
with `decrypt_prx_file`, which calls it) and `decrypt_ipl1` each keep their
own function-local `static bool kirk_initialized` guard; `kirkCount` counts
the `kirk_init()` calls performed so far. -/
structure KirkState where
  prxInit : Bool
  iplInit : Bool
  kirkCount : Nat
deriving DecidableEq

/-- The exported entry points of the binding module. -/
inductive EntryCall
  | prx
  | prxFile
  | info
  | ipl1
  | ipl2
  | ipl3
  | decomp
deriving DecidableEq

/-- Effect of one entry-point call on the initialization state: only
`decrypt_prx` / `decrypt_prx_file` and `decrypt_ipl1` consult a guard and
call `kirk_init()`, each under its own flag; the other entry points never
touch initialization. -/
def stepCall (s : KirkState) (c : EntryCall) : KirkState :=
  match c with
  | .prx => if s.prxInit then s else ⟨true, s.iplInit, s.kirkCount + 1⟩
  | .prxFile => if s.prxInit then s else ⟨true, s.iplInit, s.kirkCount + 1⟩
  | .ipl1 => if s.iplInit then s else ⟨s.prxInit, true, s.kirkCount + 1⟩
  | _ => s

/-- Run a sequence of entry-point calls from the fresh process state. -/
def runCalls (cs : List EntryCall) : KirkState := cs.foldl stepCall ⟨false, false, 0⟩

/-- The calls guarded by the `decrypt_prx` static flag. -/
def usesPrxGuard (c : EntryCall) : Bool :=
  match c with
  | .prx => true
  | .prxFile => true
  | _ => false

/-- The calls guarded by the `decrypt_ipl1` static flag. -/
def usesIplGuard (c : EntryCall) : Bool :=
  match c with
  | .ipl1 => true
  | _ => false

/-- An all-zero buffer of exactly the header size. -/
def zeroHeader : Buf := List.replicate 0x150 0

/-- A header whose elf_size field (offset 0x28) is 0xFFFFFFFF, zero elsewhere. -/
def elfFFHeader : Buf :=
  List.replicate 0x28 0 ++ [0xFF, 0xFF, 0xFF, 0xFF] ++ List.replicate (0x150 - 0x2C) 0

/-- A codec that reports the capacity it was handed as its output length. -/
def echoCodec : CodecFn := fun _ cap => ((cap : Int), List.replicate cap 0, [])

/-- A KL4E-tagged input of length 429496730, so that ten times its length
overflows u32 arithmetic. -/
def bigInput : Buf := KL4E_MAGIC ++ List.replicate 429496726 0

end Pspdecrypt

namespace Pspdecrypt

-- ---------------------------------------------------------------- helpers

/-- Taking a prefix does not change entries before the cut. -/
theorem getD_take_of_lt (l : Buf) (n i d : Nat) (h : i < n) :
    (l.take n).getD i d = l.getD i d := by
  simp [List.getD_eq_getElem?_getD, List.getElem?_take, h]

/-- Header-field reads are unchanged by truncating the buffer after the field. -/
theorem le32_take (data : Buf) (off n : Nat) (h : off + 3 < n) :
    le32 (data.take n) off = le32 data off := by
  unfold le32
  rw [getD_take_of_lt _ _ _ _ (by omega), getD_take_of_lt _ _ _ _ (by omega),
    getD_take_of_lt _ _ _ _ (by omega), getD_take_of_lt _ _ _ _ (by omega)]

/-- The magic sniff only looks at the first four bytes. -/
theorem pspIsCompressed_take (data : Buf) (n : Nat) (h : 4 ≤ n) :
    pspIsCompressed (data.take n) = pspIsCompressed data := by
  unfold pspIsCompressed
  rw [List.take_take, List.take_take, min_eq_left (by omega), min_eq_left (by omega)]

/-- A buffer of at least header size (and below the u32 range) passes the size check. -/
theorem usize_not_small (data : Buf) (hlen : PSP_HEADER_SIZE ≤ data.length)
    (hbound : data.length < 2 ^ 32) : ¬ usize data < PSP_HEADER_SIZE := by
  simp only [usize, PSP_HEADER_SIZE] at *
  omega

/-- The decryption core reports DecryptionFailed exactly when the underlying
decrypter status is negative. -/
theorem decryptPrxCore_err_iff (f : PrxDecryptFn) (c : CodecFn) (data : Buf)
    (sid : Option Buf) (v : Bool) :
    decryptPrxCore f c data sid v = .err .DecryptionFailed ↔ (f data sid v).1 < 0 := by
  by_cases hneg : (f data sid v).1 < 0
  · simp [decryptPrxCore, hneg]
  · simp only [decryptPrxCore]
    rw [if_neg hneg]
    constructor
    · intro hEq
      exfalso
      revert hEq
      split
      · split
        · split <;> simp
        · split <;> simp
      · simp
    · intro hlt
      exact absurd hlt hneg

-- ---------------------------------------------------------------- C1

/-- C1: for every input and every positive max_size, provided the underlying
codec honours the spec hard-cap contract (its status never exceeds the handed
capacity), decompress either raises an error or returns a buffer of length at
most max_size; it never returns more bytes than the cap. -/
theorem decompress_respects_cap (codec : CodecFn) (data : Buf) (max_size : Int)
    (verbose : Bool)
    (hcap : ∀ input cap, (codec input cap).1 ≤ (cap : Int))
    (hpos : 0 < max_size) :
    (∃ e, decompress codec data max_size verbose = .err e) ∨
    (∃ out : Buf, decompress codec data max_size verbose = .ok out ∧
      out.length ≤ max_size.toNat) := by
  by_cases hcomp : pspIsCompressed data = false
  · exact Or.inl ⟨.NotCompressed, by simp [decompress, hcomp]⟩
  · by_cases hneg : (codec data max_size.toNat).1 < 0
    · exact Or.inl ⟨.DecompressFailed, by simp [decompress, hcomp, hpos, hneg]⟩
    · right
      refine ⟨(codec data max_size.toNat).2.1.take (codec data max_size.toNat).1.toNat,
        by simp [decompress, hcomp, hpos, hneg], ?_⟩
      have h1 : (codec data max_size.toNat).1.toNat ≤ max_size.toNat := by
        have h0 := hcap data max_size.toNat
        omega
      calc ((codec data max_size.toNat).2.1.take (codec data max_size.toNat).1.toNat).length
          ≤ (codec data max_size.toNat).1.toNat := by simp [List.length_take]
        _ ≤ max_size.toNat := h1

/-- C1 witness: the cap theorem applied at a concrete KL4E input with cap 5. -/
theorem decompress_respects_cap_concrete :
    (∃ e, decompress (fun _ _ => (0, [], [])) KL4E_MAGIC 5 false = .err e) ∨
    (∃ out : Buf, decompress (fun _ _ => (0, [], [])) KL4E_MAGIC 5 false = .ok out ∧
      out.length ≤ (5 : Int).toNat) :=
  decompress_respects_cap (fun _ _ => (0, [], [])) KL4E_MAGIC 5 false
    (fun _ cap => by simp) (by norm_num)

-- ---------------------------------------------------------------- C2

/-- C2 counterexample: on the empty input (shorter than 0x150 bytes),
decrypt_ipl1 does not return TooSmall; it reports its stage-1 failure error,
so not every entry point returns TooSmall on short inputs. -/
theorem short_input_counterexample :
    decrypt_ipl1 (fun d => (-1, d)) [] false = .err .Ipl1Failed ∧
    decrypt_ipl1 (fun d => (-1, d)) [] false ≠ .err .TooSmall := by decide

/-- C2 amended: for every input shorter than 0x150 bytes, decrypt_prx and
get_prx_info return TooSmall, while decrypt_ipl1, linearize_ipl2,
decrypt_ipl3 and decompress perform no header-size check and never return
TooSmall, whatever the underlying library routines do. -/
theorem short_input_requires_header (data : Buf)
    (f1 : PrxDecryptFn) (c1 : CodecFn) (sid : Option Buf) (v1 : Bool)
    (g1 : IplFn) (v2 : Bool) (g2 : Ipl2Fn) (g3 : IplFn)
    (c2 : CodecFn) (m : Int) (v3 : Bool)
    (h : data.length < PSP_HEADER_SIZE) :
    decrypt_prx f1 c1 data sid v1 = .err .TooSmall ∧
    get_prx_info data = .err .TooSmall ∧
    decrypt_ipl1 g1 data v2 ≠ .err .TooSmall ∧
    linearize_ipl2 g2 data ≠ .err .TooSmall ∧
    decrypt_ipl3 g3 data ≠ .err .TooSmall ∧
    decompress c2 data m v3 ≠ .err .TooSmall := by
  have hu : usize data < PSP_HEADER_SIZE := by
    simp only [usize, PSP_HEADER_SIZE] at *
    omega
  refine ⟨by simp [decrypt_prx, hu], by simp [get_prx_info, h], ?_, ?_, ?_, ?_⟩
  · by_cases hg : (g1 data).1 ≤ 0 <;> simp [decrypt_ipl1, hg]
  · by_cases hg : (g2 data).1 ≤ 0 <;> simp [linearize_ipl2, hg]
  · by_cases hg : (g3 data).1 ≤ 0 <;> simp [decrypt_ipl3, hg]
  · simp only [decompress]
    split
    · simp
    · (repeat' split) <;> simp

/-- C2 witness: the amended theorem applied at the empty input. -/
theorem short_input_requires_header_concrete :
    decrypt_prx (fun _ _ _ => (0, [])) (fun _ _ => (0, [], [])) [] none false = .err .TooSmall ∧
    get_prx_info [] = .err .TooSmall ∧
    decrypt_ipl1 (fun d => (-1, d)) [] false ≠ .err .TooSmall ∧
    linearize_ipl2 (fun d => (-1, d, 0)) [] ≠ .err .TooSmall ∧
    decrypt_ipl3 (fun d => (-1, d)) [] ≠ .err .TooSmall ∧
    decompress (fun _ _ => (0, [], [])) [] (-1) false ≠ .err .TooSmall :=
  short_input_requires_header [] (fun _ _ _ => (0, [])) (fun _ _ => (0, [], [])) none false
    (fun d => (-1, d)) false (fun d => (-1, d, 0)) (fun d => (-1, d))
    (fun _ _ => (0, [], [])) (-1) false (by decide)

-- ---------------------------------------------------------------- C3

/-- C3 counterexample: when the underlying command sequence yields exactly
zero, decrypt_prx succeeds with an empty buffer instead of failing with
DecryptionFailed, refuting the negative-or-zero wording. -/
theorem zero_result_succeeds :
    decrypt_prx (fun _ _ _ => (0, [])) (fun _ _ => (0, [], [])) zeroHeader none false = .ok [] ∧
    decrypt_prx (fun _ _ _ => (0, [])) (fun _ _ => (0, [], [])) zeroHeader none false ≠
      .err .DecryptionFailed := by decide

/-- C3 amended: past the size and secure-id validation, decrypt_prx fails
with DecryptionFailed exactly when the underlying command sequence yields a
negative status; a zero or positive status never produces this error. -/
theorem prx_negative_iff_decryption_failed (f : PrxDecryptFn) (c : CodecFn)
    (data : Buf) (sid : Option Buf) (v : Bool)
    (hlen : PSP_HEADER_SIZE ≤ data.length) (hbound : data.length < 2 ^ 32)
    (hsid : ∀ s, sid = some s → s.length = 16) :
    decrypt_prx f c data sid v = .err .DecryptionFailed ↔ (f data sid v).1 < 0 := by
  have hu := usize_not_small data hlen hbound
  have hcore : decrypt_prx f c data sid v = decryptPrxCore f c data sid v := by
    cases sid with
    | none => simp [decrypt_prx, hu]
    | some s => simp [decrypt_prx, hu, hsid s rfl]
  rw [hcore]
  exact decryptPrxCore_err_iff f c data sid v

/-- C3 witness: a decrypter status of -1 on a concrete header gives
DecryptionFailed. -/
theorem prx_negative_iff_decryption_failed_concrete :
    decrypt_prx (fun _ _ _ => (-1, [])) (fun _ _ => (0, [], [])) zeroHeader none false =
      .err .DecryptionFailed :=
  (prx_negative_iff_decryption_failed (fun _ _ _ => (-1, [])) (fun _ _ => (0, [], []))
    zeroHeader none false (by decide) (by decide)
    (fun s hs => Option.noConfusion hs)).mpr (by decide)

-- ---------------------------------------------------------------- C4

/-- C4: at a header whose elf_size field is 0xFFFFFFFF, a decompressor
failure status of -1 passes the C comparison decompressed_size == elf_size
(int compared against u32, so -1 converts to 0xFFFFFFFF): the failed
decompression is accepted instead of returning the undecompressed decrypted
bytes, contradicting the exact-length acceptance rule. -/
theorem elf_size_unsigned_comparison_bug :
    pspGetElfSize elfFFHeader = 0xFFFFFFFF ∧
    decrypt_prx (fun _ _ _ => (4, KL4E_MAGIC)) (fun _ _ => (-1, [], [])) elfFFHeader none false =
      .ok [] ∧
    decrypt_prx (fun _ _ _ => (4, KL4E_MAGIC)) (fun _ _ => (-1, [], [])) elfFFHeader none false ≠
      .ok KL4E_MAGIC := by decide

-- ---------------------------------------------------------------- C5

/-- C5: for every input of at least header size, get_prx_info succeeds with
the five header fields of the pure parse, and its result depends only on the
first 0x150 bytes of the input; as a pure function it is trivially
side-effect-free and idempotent, and it allocates no output buffer at all. -/
theorem get_prx_info_header_only (data : Buf) (h : PSP_HEADER_SIZE ≤ data.length) :
    get_prx_info data = .ok ⟨pspGetTagVal data, pspGetElfSize data, pspGetPspSize data,
        pspGetCompSize data, pspIsCompressed data⟩ ∧
    get_prx_info data = get_prx_info (data.take PSP_HEADER_SIZE) := by
  have h1 : ¬ data.length < PSP_HEADER_SIZE := not_lt.mpr h
  have hlen : (data.take PSP_HEADER_SIZE).length = PSP_HEADER_SIZE := by
    simp only [List.length_take]
    omega
  have h2 : ¬ (data.take PSP_HEADER_SIZE).length < PSP_HEADER_SIZE := by
    rw [hlen]
    exact lt_irrefl _
  have t1 := le32_take data 0xD0 PSP_HEADER_SIZE (by decide)
  have t2 := le32_take data 0x28 PSP_HEADER_SIZE (by decide)
  have t3 := le32_take data 0x2C PSP_HEADER_SIZE (by decide)
  have t4 := le32_take data 0xB0 PSP_HEADER_SIZE (by decide)
  have t5 := pspIsCompressed_take data PSP_HEADER_SIZE (by decide)
  constructor
  · simp [get_prx_info, h1]
  · simp only [get_prx_info, if_neg h1, if_neg h2, pspGetTagVal, pspGetElfSize,
      pspGetPspSize, pspGetCompSize, t1, t2, t3, t4, t5]

/-- C5 witness: the parse theorem applied at an all-zero header. -/
theorem get_prx_info_header_only_concrete :
    get_prx_info zeroHeader = .ok ⟨pspGetTagVal zeroHeader, pspGetElfSize zeroHeader,
        pspGetPspSize zeroHeader, pspGetCompSize zeroHeader, pspIsCompressed zeroHeader⟩ ∧
    get_prx_info zeroHeader = get_prx_info (zeroHeader.take PSP_HEADER_SIZE) :=
  get_prx_info_header_only zeroHeader (by decide)

-- ---------------------------------------------------------------- C6

/-- C6: a supplied secure id that is not exactly 16 bytes makes decrypt_prx
fail with an error before any decryption (the result does not depend on the
underlying decrypter or codec), while a 16-byte secure id is accepted and
handed to the decryption core. -/
theorem secure_id_validated (f g : PrxDecryptFn) (c d : CodecFn) (data sid : Buf)
    (v : Bool) :
    (sid.length ≠ 16 →
      decrypt_prx f c data (some sid) v = decrypt_prx g d data (some sid) v ∧
      ∃ e, decrypt_prx f c data (some sid) v = .err e) ∧
    (sid.length = 16 → PSP_HEADER_SIZE ≤ data.length → data.length < 2 ^ 32 →
      decrypt_prx f c data (some sid) v = decryptPrxCore f c data (some sid) v) := by
  constructor
  · intro hbad
    by_cases hu : usize data < PSP_HEADER_SIZE
    · exact ⟨by simp [decrypt_prx, hu], ⟨.TooSmall, by simp [decrypt_prx, hu]⟩⟩
    · exact ⟨by simp [decrypt_prx, hu, hbad],
        ⟨.SecureIdInvalid, by simp [decrypt_prx, hu, hbad]⟩⟩
  · intro h16 hlen hbound
    have hu := usize_not_small data hlen hbound
    simp [decrypt_prx, hu, h16]

/-- C6 witness: the validation theorem applied with a 3-byte and a 16-byte
secure id on a concrete header. -/
theorem secure_id_validated_concrete :
    (decrypt_prx (fun _ _ _ => (1, [0])) (fun _ _ => (0, [], [])) zeroHeader (some [1, 2, 3]) false =
        decrypt_prx (fun _ _ _ => (2, [5])) (fun _ _ => (1, [7], [])) zeroHeader (some [1, 2, 3]) false ∧
      ∃ e, decrypt_prx (fun _ _ _ => (1, [0])) (fun _ _ => (0, [], [])) zeroHeader
        (some [1, 2, 3]) false = .err e) ∧
    decrypt_prx (fun _ _ _ => (1, [0])) (fun _ _ => (0, [], [])) zeroHeader
        (some (List.replicate 16 7)) false =
      decryptPrxCore (fun _ _ _ => (1, [0])) (fun _ _ => (0, [], [])) zeroHeader
        (some (List.replicate 16 7)) false :=
  ⟨(secure_id_validated (fun _ _ _ => (1, [0])) (fun _ _ _ => (2, [5])) (fun _ _ => (0, [], []))
      (fun _ _ => (1, [7], [])) zeroHeader [1, 2, 3] false).1 (by decide),
   (secure_id_validated (fun _ _ _ => (1, [0])) (fun _ _ _ => (2, [5])) (fun _ _ => (0, [], []))
      (fun _ _ => (1, [7], [])) zeroHeader (List.replicate 16 7) false).2
     (by decide) (by decide) (by decide)⟩

-- ---------------------------------------------------------------- C7

/-- C7 counterexample: calling decrypt_prx and then decrypt_ipl1 performs two
kirk_init loads, because each entry point keeps its own static guard; the
claimed process-wide single load does not hold across entry points. -/
theorem kirk_init_duplicate_load :
    (runCalls [.prx, .ipl1]).kirkCount = 2 := by decide

/-- Generalised invariant for the initialization counter under a call
sequence started in an arbitrary state. -/
theorem foldl_stepCall_count (cs : List EntryCall) : ∀ s : KirkState,
    (cs.foldl stepCall s).kirkCount = s.kirkCount +
      (if s.prxInit = false ∧ cs.any usesPrxGuard = true then 1 else 0) +
      (if s.iplInit = false ∧ cs.any usesIplGuard = true then 1 else 0) := by
  induction cs with
  | nil => intro s; simp
  | cons c cs ih =>
    intro s
    rw [List.foldl_cons, ih (stepCall s c), List.any_cons, List.any_cons]
    cases c <;> cases hp : s.prxInit <;> cases hi : s.iplInit <;>
      simp [stepCall, usesPrxGuard, usesIplGuard, hp, hi]
    all_goals split_ifs <;> omega

/-- C7 amended: initialization is guarded per entry point, not process-wide:
across any call sequence, kirk_init runs once if decrypt_prx or
decrypt_prx_file is ever called and once more if decrypt_ipl1 is ever called
(the other entry points never initialize the engine), so repeated calls
through one entry are no-ops but up to two loads occur in total. -/
theorem kirk_init_per_entry_guard (cs : List EntryCall) :
    (runCalls cs).kirkCount =
      (if cs.any usesPrxGuard = true then 1 else 0) +
      (if cs.any usesIplGuard = true then 1 else 0) := by
  have H := foldl_stepCall_count cs ⟨false, false, 0⟩
  simpa [runCalls] using H

-- ---------------------------------------------------------------- C8

/-- C8 counterexample: when the decrypted payload sniffs as KL4E and the
codec leaves its log string empty, decrypt_prx with verbose=true fails (the
unguarded log_str.substr(1) raises out_of_range) while the same call with
verbose=false returns the bytes, so the verbose flag can change the
contractual result. -/
theorem verbose_changes_result :
    decrypt_prx (fun _ _ _ => (4, KL4E_MAGIC)) (fun _ _ => (0, [], []))
      zeroHeader none true = .err .LogOutOfRange ∧
    decrypt_prx (fun _ _ _ => (4, KL4E_MAGIC)) (fun _ _ => (0, [], []))
      zeroHeader none false = .ok [] := by decide

/-- C8 amended: decrypt_ipl1 and decompress return identical results with
verbose=true and verbose=false (their diagnostic prints are guarded by a
non-empty log), and decrypt_prx does too provided the underlying library
decrypter is verbose-insensitive and the codec never leaves its log string
empty; an empty codec log instead makes verbose=true fail through the
unguarded log_str.substr(1) where verbose=false succeeds. -/
theorem verbose_flag_immaterial (f : PrxDecryptFn) (c : CodecFn) (g : IplFn)
    (cc : CodecFn) (dataP dataI dataD : Buf) (sid : Option Buf) (m : Int)
    (hf : ∀ dd ss, f dd ss true = f dd ss false)
    (hlog : ∀ input cap, (c input cap).2.2 ≠ []) :
    decrypt_prx f c dataP sid true = decrypt_prx f c dataP sid false ∧
    decrypt_ipl1 g dataI true = decrypt_ipl1 g dataI false ∧
    decompress cc dataD m true = decompress cc dataD m false := by
  refine ⟨?_, rfl, rfl⟩
  have hcore : ∀ ss, decryptPrxCore f c dataP ss true =
      decryptPrxCore f c dataP ss false := by
    intro ss
    simp only [decryptPrxCore, hf]
    by_cases h1 : (f dataP ss false).1 < 0
    · simp [h1]
    · simp only [if_neg h1]
      by_cases h2 : 4 ≤ (f dataP ss false).1 ∧
          pspIsCompressed (f dataP ss false).2 = true
      · simp only [if_pos h2]
        have hl := hlog ((f dataP ss false).2.take (f dataP ss false).1.toNat)
          (pspGetElfSize dataP)
        split <;> simp [hl]
      · simp only [if_neg h2]
  by_cases hu : usize dataP < PSP_HEADER_SIZE
  · simp [decrypt_prx, hu]
  · cases sid with
    | none => simp [decrypt_prx, hu, hcore]
    | some sb =>
      by_cases hs : sb.length ≠ 16
      · simp [decrypt_prx, hu, hs]
      · simp [decrypt_prx, hu, hs, hcore]

/-- C8 witness: the amended theorem applied at concrete inputs with a
verbose-insensitive decrypter and a codec whose log is non-empty. -/
theorem verbose_flag_immaterial_concrete :
    decrypt_prx (fun _ _ _ => (1, [0])) (fun _ _ => (0, [], [10])) zeroHeader none true =
      decrypt_prx (fun _ _ _ => (1, [0])) (fun _ _ => (0, [], [10])) zeroHeader none false ∧
    decrypt_ipl1 (fun d => (1, d)) [3] true = decrypt_ipl1 (fun d => (1, d)) [3] false ∧
    decompress (fun _ _ => (0, [], [10])) KL4E_MAGIC 5 true =
      decompress (fun _ _ => (0, [], [10])) KL4E_MAGIC 5 false :=
  verbose_flag_immaterial (fun _ _ _ => (1, [0])) (fun _ _ => (0, [], [10]))
    (fun d => (1, d)) (fun _ _ => (0, [], [10])) zeroHeader [3] KL4E_MAGIC none 5
    (fun _ _ => rfl) (fun _ _ => by simp)

-- ---------------------------------------------------------------- C9

/-- C9: an input whose leading bytes match none of the supported magics makes
decompress fail with the not-compressed error before any decoding (the result
is the same for every codec) and it is never returned unchanged. -/
theorem decompress_rejects_unknown_magic (c : CodecFn) (data : Buf) (m : Int) (v : Bool)
    (h : pspIsCompressed data = false) :
    decompress c data m v = .err .NotCompressed ∧
    decompress c data m v ≠ .ok data := by
  constructor <;> simp [decompress, h]

/-- C9 witness: the rejection theorem applied at four zero bytes. -/
theorem decompress_rejects_unknown_magic_concrete :
    decompress (fun _ _ => (0, [], [])) [0, 0, 0, 0] 5 false = .err .NotCompressed ∧
    decompress (fun _ _ => (0, [], [])) [0, 0, 0, 0] 5 false ≠ .ok [0, 0, 0, 0] :=
  decompress_rejects_unknown_magic (fun _ _ => (0, [], [])) [0, 0, 0, 0] 5 false (by decide)

-- ---------------------------------------------------------------- C10

/-- Successful decompression under the defaulted cap, parametrized over the
input length so that the statement can be instantiated on very large inputs
without evaluating them. -/
theorem decompress_ok_of (c : CodecFn) (data : Buf) (m : Int) (v : Bool) (n cap : Nat)
    (hcomp : pspIsCompressed data = true) (hm : ¬ 0 < m)
    (hn : data.length = n) (hcap : n % 2 ^ 32 * 10 % 2 ^ 32 = cap)
    (hneg : ¬ (c data cap).1 < 0) :
    decompress c data m v = .ok ((c data cap).2.1.take (c data cap).1.toNat) := by
  simp only [decompress, usize, hn, hcap]
  rw [if_neg (by simp [hcomp]), if_neg hm, if_neg hneg]

/-- C10 counterexample: on a compressed input of length 429496730 the default
cap is not 10 times the input length (4294967300) but that value reduced
modulo 2 ^ 32, namely 4: a codec echoing its handed capacity yields a 4-byte
result. -/
theorem default_cap_wraps_u32 :
    bigInput.length * 10 = 4294967300 ∧
    decompress echoCodec bigInput (-1) false = .ok (List.replicate 4 0) := by
  have hlen : bigInput.length = 429496730 := by
    show (KL4E_MAGIC ++ List.replicate 429496726 0).length = 429496730
    rw [List.length_append, List.length_replicate]
    rfl
  refine ⟨by rw [hlen], ?_⟩
  rw [decompress_ok_of echoCodec bigInput (-1) false 429496730 4 rfl (by norm_num)
    hlen (by norm_num) (by norm_num [echoCodec])]
  simp [echoCodec, List.take_replicate]

/-- C10 amended: with max_size nonpositive the cap handed to the codec is
(input length * 10) modulo 2 ^ 32; hence, for a codec honouring the cap
contract, a successful result still has length at most 10 times the input
length, and a negative codec status is reported as a failure, never
truncated. -/
theorem decompress_default_cap_bound (c : CodecFn) (data : Buf) (m : Int) (v : Bool)
    (hm : m ≤ 0) (hcap : ∀ input cap, (c input cap).1 ≤ (cap : Int)) :
    (∀ out, decompress c data m v = .ok out → out.length ≤ 10 * data.length) ∧
    ((c data (usize data * 10 % 2 ^ 32)).1 < 0 → pspIsCompressed data = true →
      decompress c data m v = .err .DecompressFailed) := by
  have hm' : ¬ 0 < m := not_lt.mpr hm
  constructor
  · intro out hout
    simp only [decompress] at hout
    by_cases hcomp : pspIsCompressed data = false
    · rw [if_pos hcomp] at hout
      exact absurd hout (by simp)
    · rw [if_neg hcomp, if_neg hm'] at hout
      by_cases hneg : (c data (usize data * 10 % 2 ^ 32)).1 < 0
      · rw [if_pos hneg] at hout
        exact absurd hout (by simp)
      · rw [if_neg hneg] at hout
        injection hout with h
        subst h
        have h1 : (c data (usize data * 10 % 2 ^ 32)).1.toNat ≤ usize data * 10 % 2 ^ 32 := by
          have h0 := hcap data (usize data * 10 % 2 ^ 32)
          omega
        have h2 : usize data * 10 % 2 ^ 32 ≤ usize data * 10 := Nat.mod_le _ _
        have h3 : usize data ≤ data.length := Nat.mod_le _ _
        have h4 : ((c data (usize data * 10 % 2 ^ 32)).2.1.take
            (c data (usize data * 10 % 2 ^ 32)).1.toNat).length ≤
            (c data (usize data * 10 % 2 ^ 32)).1.toNat := by
          simp [List.length_take]
        omega
  · intro hneg hcomp
    simp only [decompress]
    rw [if_neg (by simp [hcomp]), if_neg hm', if_pos hneg]

/-- C10 witness: the bound theorem applied to a concrete KL4E input with an
empty successful result. -/
theorem decompress_default_cap_bound_concrete :
    ([] : Buf).length ≤ 10 * KL4E_MAGIC.length :=
  (decompress_default_cap_bound (fun _ _ => (0, [], [])) KL4E_MAGIC 0 false (by norm_num)
    (fun _ cap => by simp)).1 [] (by decide)

end Pspdecrypt
